import Mathlib

/-!
# Resource demo server (`mg-prompt/main.go`): shallow embedding

Go strings are modelled as Lean `String`s (the strings the handlers receive are
decoded from JSON and are therefore valid UTF-8), Go `int` as `Int` with the
64-bit range made explicit where `strconv.Atoi` checks it, the package-level
`users` slice as an explicit `List User` state, and a handler's result as an
outcome type with one constructor per way the Go handler can end: a returned
value, a returned error, or a runtime panic.
-/

namespace McpServer

/-! ## Data model (`main.go` lines 17-32) -/

/-- The `User` struct. -/
structure User where
  ID : Int
  Name : String
  Email : String
  Role : String
  Created : String
deriving DecidableEq, Repr

/-- The initial value of the package-level `users` slice. -/
def users : List User :=
  [ { ID := 0, Name := "Alice Johnson", Email := "alice@example.com", Role := "admin",
      Created := "2024-01-15" },
    { ID := 1, Name := "Bob Smith", Email := "bob@example.com", Role := "user",
      Created := "2024-02-20" },
    { ID := 2, Name := "Carol Wilson", Email := "carol@example.com", Role := "moderator",
      Created := "2024-03-10" } ]

/-- The runtime panics the handlers can raise. -/
inductive GoPanic where
  /-- A single-value type assertion `x.(string)` on a value that is not a string. -/
  | interfaceConversion
  /-- A slice index `xs[i]` with `i` outside `0 .. len-1`. -/
  | indexOutOfRange (index : Int) (len : Nat)
deriving DecidableEq, Repr

/-! ## Library functions used by the handlers -/

/-- The digit characters of `strconv` and `encoding/json` hexadecimal escapes. -/
def lowerhex : List Char := "0123456789abcdef".data

/-- The hexadecimal digit of `n % 16`. -/
def hexDigit (n : Nat) : Char := lowerhex.getD (n % 16) '0'

/-- The number `n` written with `k` hexadecimal digits (the low `4k` bits). -/
def hexFixed : Nat → Nat → List Char
  | 0, _ => []
  | k + 1, n => hexFixed k (n / 16) ++ [hexDigit n]

/-- Function `strconv.Itoa`: the decimal form of an integer. -/
def Itoa (n : Int) : String :=
  if n < 0 then "-" ++ Nat.repr n.natAbs else Nat.repr n.toNat

/-- One rune as `strconv.Quote` writes it inside the quote character `q`
(`appendEscapedRune`). The table `strconv.IsPrint` is a parameter. -/
def escapedRune (IsPrint : Char → Bool) (q : Char) (r : Char) : List Char :=
  if r = q ∨ r = '\\' then ['\\', r]
  else if IsPrint r then [r]
  else if r = '\x07' then ['\\', 'a']
  else if r = '\x08' then ['\\', 'b']
  else if r = '\x0c' then ['\\', 'f']
  else if r = '\n' then ['\\', 'n']
  else if r = '\r' then ['\\', 'r']
  else if r = '\t' then ['\\', 't']
  else if r = '\x0b' then ['\\', 'v']
  else if r.toNat < 0x20 ∨ r.toNat = 0x7f then '\\' :: 'x' :: hexFixed 2 r.toNat
  else if r.toNat < 0x10000 then '\\' :: 'u' :: hexFixed 4 r.toNat
  else '\\' :: 'U' :: hexFixed 8 r.toNat

/-- Function `strconv.Quote`: a double-quoted Go string literal. -/
def Quote (IsPrint : Char → Bool) (s : String) : String :=
  ⟨'"' :: (s.data.flatMap (escapedRune IsPrint '"')) ++ ['"']⟩

/-- Function `strconv.QuoteRune`: a single-quoted Go character literal. -/
def QuoteRune (IsPrint : Char → Bool) (r : Char) : String :=
  let q := Char.ofNat 39
  ⟨q :: escapedRune IsPrint q r ++ [q]⟩

/-- The verb `%q` of package `fmt` applied to an `int` (`fmtQc` on the value
converted to `uint64`): values that are not a Unicode scalar value are written
as U+FFFD. -/
def fmtQInt (IsPrint : Char → Bool) (v : Int) : String :=
  if 0 ≤ v ∧ v.toNat.isValidChar then QuoteRune IsPrint (Char.ofNat v.toNat)
  else QuoteRune IsPrint (Char.ofNat 0xFFFD)

/-- The two error values a `strconv.NumError` can wrap. -/
inductive NumErr where
  /-- Value `strconv.ErrSyntax`. -/
  | invalid
  /-- Value `strconv.ErrRange`. -/
  | outOfRange
deriving DecidableEq, Repr

/-- The text of `ErrSyntax` and `ErrRange`. -/
def NumErr.text : NumErr → String
  | .invalid => "invalid syntax"
  | .outOfRange => "value out of range"

/-- The method `(*NumError).Error` for an error raised by `Atoi` on input `num`. -/
def numErrorText (IsPrint : Char → Bool) (num : String) (e : NumErr) : String :=
  "strconv.Atoi: parsing " ++ Quote IsPrint num ++ ": " ++ e.text

/-- The loop of `strconv.ParseUint` for base 10 and 64 bits: `n` is the value
read so far. A byte that is not a decimal digit is a syntax error; an overflow
is a range error, reported where it is detected. -/
def parseUintLoop (n : Nat) : List Char → Except NumErr Nat
  | [] => .ok n
  | c :: cs =>
    if '0' ≤ c ∧ c ≤ '9' then
      let d := c.toNat - '0'.toNat
      if n ≥ (2 ^ 64 - 1) / 10 + 1 then .error .outOfRange
      else
        let n1 := (n * 10 + d) % 2 ^ 64
        if n1 < n ∨ n1 > 2 ^ 64 - 1 then .error .outOfRange
        else parseUintLoop n1 cs
    else .error .invalid

/-- Function `strconv.ParseUint(s, 10, 64)`; on a range error the value is the
maximum. -/
def ParseUint (s : List Char) : Nat × Option NumErr :=
  if s = [] then (0, some .invalid)
  else match parseUintLoop 0 s with
    | .ok n => (n, none)
    | .error .invalid => (0, some .invalid)
    | .error .outOfRange => (2 ^ 64 - 1, some .outOfRange)

/-- Function `strconv.Atoi` on a 64-bit platform, that is `ParseInt(s, 10, 0)`
(the fast path for short inputs computes the same result): the value and the
error, `none` for a `nil` error. -/
def Atoi (s : String) : Int × Option NumErr :=
  match s.data with
  | [] => (0, some .invalid)
  | c :: cs =>
    let neg := decide (c = '-')
    let body := if c = '+' ∨ c = '-' then cs else c :: cs
    match ParseUint body with
    | (_, some .invalid) => (0, some .invalid)
    | (un, _) =>
      if !neg ∧ un ≥ 2 ^ 63 then (2 ^ 63 - 1, some .outOfRange)
      else if neg ∧ un > 2 ^ 63 then (-(2 ^ 63), some .outOfRange)
      else (if neg then -(un : Int) else (un : Int), none)

/-- Function `strings.TrimLeft`: `s` without its leading characters that occur
in `cutset`. -/
def TrimLeft (s cutset : String) : String :=
  ⟨s.data.dropWhile (fun c => cutset.data.contains c)⟩

/-- The pieces of a character list between occurrences of `sep`. -/
def splitChars (sep : Char) : List Char → List (List Char)
  | [] => [[]]
  | c :: cs =>
    if c = sep then [] :: splitChars sep cs
    else match splitChars sep cs with
      | [] => [[c]]
      | h :: t => (c :: h) :: t

/-- Function `strings.Split` for a separator of one character. -/
def Split (s : String) (sep : Char) : List String :=
  (splitChars sep s.data).map String.mk

/-! ## JSON encoding of a `User` -/

/-- One character of a string as `encoding/json` writes it with HTML escaping
on (the default of `Marshal` and `MarshalIndent`). -/
def jsonChar (c : Char) : List Char :=
  if c = '\\' ∨ c = '"' then ['\\', c]
  else if c = '\x08' then ['\\', 'b']
  else if c = '\x0c' then ['\\', 'f']
  else if c = '\n' then ['\\', 'n']
  else if c = '\r' then ['\\', 'r']
  else if c = '\t' then ['\\', 't']
  else if c.toNat < 0x20 ∨ c = '<' ∨ c = '>' ∨ c = '&' then
    '\\' :: 'u' :: '0' :: '0' :: hexFixed 2 c.toNat
  else if c.toNat = 0x2028 ∨ c.toNat = 0x2029 then
    '\\' :: 'u' :: '2' :: '0' :: '2' :: [hexDigit c.toNat]
  else [c]

/-- A Go string as a JSON string literal. -/
def jsonString (s : String) : String :=
  ⟨'"' :: (s.data.flatMap jsonChar) ++ ['"']⟩

/-- Function `userToJson`: `json.Marshal` of a `User`, the error dropped. -/
def userToJson (usr : User) : String :=
  "\x7b\"id\":" ++ Itoa usr.ID ++ ",\"name\":" ++ jsonString usr.Name ++
  ",\"email\":" ++ jsonString usr.Email ++ ",\"role\":" ++ jsonString usr.Role ++
  ",\"created\":" ++ jsonString usr.Created ++ "\x7d"

/-- The call `json.MarshalIndent(newUser, "", "  ")`; marshalling a struct of
an `int` and four strings returns no error. -/
def MarshalIndent (usr : User) : String :=
  "\x7b\n  \"id\": " ++ Itoa usr.ID ++ ",\n  \"name\": " ++ jsonString usr.Name ++
  ",\n  \"email\": " ++ jsonString usr.Email ++ ",\n  \"role\": " ++ jsonString usr.Role ++
  ",\n  \"created\": " ++ jsonString usr.Created ++ "\n\x7d"

/-! ## The profile template handler (`setupResourcetemplates`, lines 49-67) -/

/-- The struct `mcp.TextResourceContents`. -/
structure TextResourceContents where
  URI : String
  MIMEType : String
  Text : String
deriving DecidableEq, Repr

/-- How a resource read handler ends: `(contents, nil)`, `(nil, err)` with the
error's message, or a runtime panic. -/
inductive ReadOutcome where
  | contents (cs : List TextResourceContents)
  | error (msg : String)
  | panic (p : GoPanic)
deriving DecidableEq, Repr

/-- The ID segment the profile handler parses:
`strings.Split(strings.TrimLeft(uri, "users://"), "/")[0]`; `none` would be the
index panic on an empty split result. -/
def idSegment (requestURI : String) : Option String :=
  (Split (TrimLeft requestURI "users://") '/').head?

/-- The handler registered for the template `users://(id)/profile`, run on the
current `users` slice and the request's `Params.URI`. -/
def profileHandler (IsPrint : Char → Bool) (users : List User) (requestURI : String) :
    ReadOutcome :=
  match idSegment requestURI with
  | none => .panic (.indexOutOfRange 0 0)
  | some seg =>
    match Atoi seg with
    | (userID, some err) =>
      .error (Quote IsPrint requestURI ++ " : " ++ fmtQInt IsPrint userID ++ ": " ++
        numErrorText IsPrint seg err)
    | (userID, none) =>
      if userID < 0 then .panic (.indexOutOfRange userID users.length)
      else match users.get? userID.toNat with
        | none => .panic (.indexOutOfRange userID users.length)
        | some usr =>
          .contents [{ URI := requestURI, MIMEType := "application/json",
                       Text := userToJson usr }]

/-! ## The `create_user` tool handler (`setupTools`, lines 136-175) -/

/-- A value of type `any` as `encoding/json` decodes it into the argument map. -/
inductive GoValue where
  | null
  | bool (b : Bool)
  | number (q : Rat)
  | str (s : String)
  | array (xs : List GoValue)
  | object (kvs : List (String × GoValue))

/-- The argument map `request.GetArguments()`. -/
abbrev Arguments := List (String × GoValue)

/-- The two-value type assertion `args[key].(string)`: the string, or `none`
when the key is absent or its value is not a string. -/
def assertString (args : Arguments) (key : String) : Option String :=
  match args.lookup key with
  | some (.str s) => some s
  | _ => none

/-- How the tool handler ends: `mcp.NewToolResultText`, `mcp.NewToolResultError`
(both with a `nil` Go error), or a runtime panic. -/
inductive ToolOutcome where
  | text (t : String)
  | toolError (t : String)
  | panic (p : GoPanic)
deriving DecidableEq, Repr

/-- The `create_user` handler on the current `users` slice: its outcome and the
`users` slice afterwards. `today` is `time.Now().Format("2006-01-02")`. -/
def createUser (today : String) (users : List User) (args : Arguments) :
    ToolOutcome × List User :=
  let allOk := true
  let name := assertString args "name"
  let allOk := allOk && name.isSome
  let email := assertString args "email"
  let ok := email.isSome
  let allOk := allOk && ok
  -- `role := args["role"].(string)`: the single-value assertion panics
  match assertString args "role" with
  | none => (.panic .interfaceConversion, users)
  | some role =>
    let allOk := allOk && ok
    if !allOk then (.toolError "could not parse argument", users)
    else
      let newID : Int := users.length + 1
      let newUser : User :=
        { ID := newID, Name := name.getD "", Email := email.getD "", Role := role,
          Created := today }
      (.text ("User created successfully:\n" ++ MarshalIndent newUser), users ++ [newUser])

/-- The states of the `users` slice the server can be in: the initial slice,
and the slice after a `create_user` call in such a state. -/
inductive Reachable : List User → Prop where
  | init : Reachable users
  | call (today : String) (args : Arguments) (us : List User) :
      Reachable us → Reachable (createUser today us args).2

/-- The `users` slice after the call `create_user` with name "Ann", email
"ann@x.com" and role "admin" on the initial slice. -/
def usersAfterAnn : List User :=
  (createUser "2024-01-15" users
    [("name", .str "Ann"), ("email", .str "ann@x.com"), ("role", .str "admin")]).2

/-- The `users` slice after a second call, with name "Ben". -/
def usersAfterBen : List User :=
  (createUser "2024-01-16" usersAfterAnn
    [("name", .str "Ben"), ("email", .str "ben@x.com"), ("role", .str "user")]).2

/-! ## Static resources (`setupResources`, lines 70-96) -/

/-- The fields of `mcp.Resource` that `setupResources` sets. -/
structure Resource where
  URI : String
  Name : String
  Description : String
  MIMEType : String
deriving DecidableEq, Repr

/-- A resource handler: it sees the file system through `os.ReadFile` (a path
to the file's content or to the read error's message) and the request's URI. -/
abbrev ResourceHandler := (String → Except String String) → String → ReadOutcome

/-- An entry of the server's resource map. -/
structure ResourceEntry where
  resource : Resource
  handler : ResourceHandler

/-- The server's map of static resources, keyed by URI. -/
structure MCPServer where
  resources : List (String × ResourceEntry)

/-- The call `server.NewMCPServer`: no resources yet. -/
def NewMCPServer : MCPServer := { resources := [] }

/-- The method `AddResource`: `s.resources[resource.URI] = entry`. -/
def AddResource (s : MCPServer) (resource : Resource) (handler : ResourceHandler) :
    MCPServer :=
  { resources :=
      (resource.URI, { resource := resource, handler := handler }) ::
        s.resources.filter (fun kv => kv.1 ≠ resource.URI) }

/-- The lookup `s.resources[uri]`. -/
def MCPServer.find (s : MCPServer) (uri : String) : Option ResourceEntry :=
  s.resources.lookup uri

/-- The body of the loop of `setupResources` for the iteration variable `i`
(each iteration has its own `i`, which the handler closure captures). -/
def setupResourcesStep (s : MCPServer) (i : Nat) : MCPServer :=
  AddResource s
    { URI := "docs://readme" ++ Itoa i,
      Name := "Project README " ++ Itoa i,
      Description := "The project's README file" ++ Itoa i,
      MIMEType := "text/markdown" }
    (fun readFile _request =>
      match readFile "README.md" with
      | .error err => .error err
      | .ok content =>
        .contents [{ URI := "docs://readme" ++ Itoa i, MIMEType := "text/markdown",
                     Text := content }])

/-- Function `setupResources`: `for i := range 50` over the loop body. -/
def setupResources (s : MCPServer) : MCPServer :=
  (List.range 50).foldl setupResourcesStep s

/-! ## Properties of the `create_user` handler -/

theorem assertString_of_lookup {args : Arguments} {key s : String}
    (h : args.lookup key = some (.str s)) : assertString args key = some s := by
  simp [assertString, h]

theorem assertString_eq_none {args : Arguments} {key : String}
    (h : ∀ s, args.lookup key ≠ some (.str s)) : assertString args key = none := by
  unfold assertString
  split
  · next s hs => exact absurd hs (h s)
  · rfl

/-- A `create_user` call leaves `users` as it was or appends one record that
carries the ID `len(users) + 1`. -/
theorem createUser_state (today : String) (us : List User) (args : Arguments) :
    (createUser today us args).2 = us ∨
      ∃ u : User, (createUser today us args).2 = us ++ [u] ∧ u.ID = (us.length : Int) + 1 := by
  unfold createUser
  cases assertString args "role" with
  | none => exact Or.inl rfl
  | some role =>
    cases assertString args "name" <;> cases assertString args "email" <;> simp

/-- In a reachable state no stored ID exceeds the number of records and the
stored IDs are pairwise distinct. -/
theorem reachable_inv {us : List User} (h : Reachable us) :
    (∀ u ∈ us, u.ID ≤ (us.length : Int)) ∧ (us.map User.ID).Nodup := by
  induction h with
  | init => exact ⟨by decide, by decide⟩
  | call today args us _ ih =>
    rcases createUser_state today us args with h | ⟨u, h, hu⟩
    · rw [h]; exact ih
    · rw [h]
      refine ⟨?_, ?_⟩
      · intro v hv
        rcases List.mem_append.1 hv with hv | hv
        · have := ih.1 v hv
          simp only [List.length_append, List.length_singleton, Nat.cast_add, Nat.cast_one]
          omega
        · have hvu : v = u := by simpa using hv
          simp only [List.length_append, List.length_singleton, Nat.cast_add, Nat.cast_one]
          rw [hvu, hu]
      · rw [List.map_append, List.nodup_append]
        refine ⟨ih.2, by simp, ?_⟩
        intro a ha hb
        rcases List.mem_map.1 ha with ⟨v, hv, rfl⟩
        have h1 := ih.1 v hv
        have h2 : v.ID = u.ID := by simpa using hb
        omega

/-- C1: when `name`, `email` and `role` are all strings, `create_user` returns
a text outcome and the new `users` slice is the old one followed by one record
with the supplied name, email and role and the ID `len(users) + 1`; the text is
the success line followed by the indented JSON of that record, and the decimal
form of the assigned ID occurs in it. -/
theorem createUser_appends_record (today : String) (us : List User) (args : Arguments)
    (name email role : String)
    (hn : args.lookup "name" = some (.str name))
    (he : args.lookup "email" = some (.str email))
    (hr : args.lookup "role" = some (.str role)) :
    ∃ (text : String) (u : User),
      createUser today us args = (.text text, us ++ [u]) ∧
      u.Name = name ∧ u.Email = email ∧ u.Role = role ∧
      u.ID = (us.length : Int) + 1 ∧
      text = "User created successfully:\n" ++ MarshalIndent u ∧
      (Itoa u.ID).data <:+: text.data := by
  refine ⟨_, ⟨(us.length : Int) + 1, name, email, role, today⟩, ?_, rfl, rfl, rfl, rfl, rfl, ?_⟩
  · simp [createUser, assertString_of_lookup hn, assertString_of_lookup he,
      assertString_of_lookup hr]
  · simp only [MarshalIndent, String.data_append, List.append_assoc]
    exact (List.infix_append' _ _ _).trans (List.suffix_append _ _).isInfix

/-- The C1 scenario: name "Ann", email "ann@x.com", role "admin" on the initial
slice. -/
theorem createUser_appends_record_witness :
    ∃ (text : String) (u : User),
      createUser "2024-01-15" users
        [("name", .str "Ann"), ("email", .str "ann@x.com"), ("role", .str "admin")] =
          (.text text, users ++ [u]) ∧
      u.Name = "Ann" ∧ u.Email = "ann@x.com" ∧ u.Role = "admin" ∧
      u.ID = (users.length : Int) + 1 ∧
      text = "User created successfully:\n" ++ MarshalIndent u ∧
      (Itoa u.ID).data <:+: text.data :=
  createUser_appends_record "2024-01-15" users
    [("name", .str "Ann"), ("email", .str "ann@x.com"), ("role", .str "admin")]
    "Ann" "ann@x.com" "admin" rfl rfl rfl

/-- C2: when `name` or `email` is absent from the argument map or is not a
string, a `create_user` call leaves the `users` slice as it was, whatever the
other arguments are, and its outcome is the tool error or a panic, never the
success text. -/
theorem createUser_invalid_no_side_effect (today : String) (us : List User) (args : Arguments)
    (h : (∀ s, args.lookup "name" ≠ some (.str s)) ∨
         (∀ s, args.lookup "email" ≠ some (.str s))) :
    (createUser today us args).2 = us ∧
      ((createUser today us args).1 = .toolError "could not parse argument" ∨
       (createUser today us args).1 = .panic .interfaceConversion) := by
  have h' : assertString args "name" = none ∨ assertString args "email" = none :=
    h.imp assertString_eq_none assertString_eq_none
  unfold createUser
  cases assertString args "role" with
  | none => exact ⟨rfl, Or.inr rfl⟩
  | some role =>
    rcases h' with h' | h' <;> rw [h'] <;> cases assertString args "name" <;>
      cases assertString args "email" <;> simp

/-- The C2 scenario: the argument map with `name` only leaves the three initial
records in place. -/
theorem createUser_invalid_no_side_effect_witness :
    (createUser "2024-01-15" users [("name", .str "Ann")]).2 = users ∧
      ((createUser "2024-01-15" users [("name", .str "Ann")]).1 =
          .toolError "could not parse argument" ∨
       (createUser "2024-01-15" users [("name", .str "Ann")]).1 =
          .panic .interfaceConversion) :=
  createUser_invalid_no_side_effect "2024-01-15" users [("name", .str "Ann")]
    (Or.inr (fun s h => by simp [List.lookup] at h))

/-- C3, as stated, fails: with `email` missing and `role` supplied the outcome
is the tool error with the fixed text, in which "email" does not occur; with
`email` and `role` both missing the handler panics and returns no error. -/
theorem createUser_error_names_no_argument :
    (createUser "2024-01-15" users [("name", .str "Ann"), ("role", .str "admin")]).1 =
        .toolError "could not parse argument" ∧
      ¬ ("email".data <:+: "could not parse argument".data) ∧
      (createUser "2024-01-15" users [("name", .str "Ann")]).1 = .panic .interfaceConversion := by
  refine ⟨rfl, by decide, rfl⟩

/-- C3, amended: when `name` or `email` is absent or not a string and `role` is
a string, `create_user` returns the tool error with the fixed text
"could not parse argument", the same for every offending argument, and leaves
`users` as it was. -/
theorem createUser_invalid_fixed_error (today : String) (us : List User) (args : Arguments)
    (role : String)
    (h : (∀ s, args.lookup "name" ≠ some (.str s)) ∨
         (∀ s, args.lookup "email" ≠ some (.str s)))
    (hr : args.lookup "role" = some (.str role)) :
    createUser today us args = (.toolError "could not parse argument", us) := by
  have h' : assertString args "name" = none ∨ assertString args "email" = none :=
    h.imp assertString_eq_none assertString_eq_none
  unfold createUser
  rw [assertString_of_lookup hr]
  rcases h' with h' | h' <;> rw [h'] <;> cases assertString args "name" <;>
    cases assertString args "email" <;> simp

/-- The amended C3 on the argument map with `name` and `role` but no `email`. -/
theorem createUser_invalid_fixed_error_witness :
    createUser "2024-01-15" users [("name", .str "Ann"), ("role", .str "admin")] =
      (.toolError "could not parse argument", users) :=
  createUser_invalid_fixed_error "2024-01-15" users
    [("name", .str "Ann"), ("role", .str "admin")] "admin"
    (Or.inr (fun s h => by simp [List.lookup] at h)) rfl

/-- C4 at its failing input: with `name` and `email` supplied as strings and
`role` omitted, or supplied as a number, the handler panics on the type
assertion of `role` and appends nothing. -/
theorem createUser_without_role_panics (today : String) (us : List User) :
    createUser today us [("name", .str "Ann"), ("email", .str "ann@x.com")] =
        (.panic .interfaceConversion, us) ∧
      createUser today us
          [("name", .str "Ann"), ("email", .str "ann@x.com"), ("role", .number 7)] =
        (.panic .interfaceConversion, us) :=
  ⟨rfl, rfl⟩

/-- C10: in every state reachable from the initial slice by `create_user`
calls the stored IDs are pairwise distinct, a call either leaves the slice as
it was or appends one record whose ID is the number of existing records plus
one, an ID no stored record has, and this ID is 4 on the initial slice. -/
theorem createUser_ids_distinct (us : List User) (h : Reachable us) :
    (us.map User.ID).Nodup ∧
      (∀ today args,
        (createUser today us args).2 = us ∨
        ∃ u : User, (createUser today us args).2 = us ++ [u] ∧
          u.ID = (us.length : Int) + 1 ∧ ∀ v ∈ us, v.ID ≠ u.ID) ∧
      (users.length : Int) + 1 = 4 := by
  refine ⟨(reachable_inv h).2, ?_, by decide⟩
  intro today args
  rcases createUser_state today us args with hs | ⟨u, hs, hu⟩
  · exact Or.inl hs
  · refine Or.inr ⟨u, hs, hu, ?_⟩
    intro v hv
    have := (reachable_inv h).1 v hv
    omega

/-- C10 on the state after one successful call: IDs 0, 1, 2, 4. -/
theorem createUser_ids_distinct_witness :
    usersAfterAnn.map User.ID = [0, 1, 2, 4] ∧
    (usersAfterAnn.map User.ID).Nodup ∧
      (∀ today args,
        (createUser today usersAfterAnn args).2 = usersAfterAnn ∨
        ∃ u : User, (createUser today usersAfterAnn args).2 = usersAfterAnn ++ [u] ∧
          u.ID = (usersAfterAnn.length : Int) + 1 ∧ ∀ v ∈ usersAfterAnn, v.ID ≠ u.ID) ∧
      (users.length : Int) + 1 = 4 :=
  ⟨by decide, createUser_ids_distinct usersAfterAnn (Reachable.call _ _ _ Reachable.init)⟩

/-! ## Properties of the profile handler -/

theorem splitChars_ne_nil (sep : Char) (cs : List Char) : splitChars sep cs ≠ [] := by
  cases cs with
  | nil => simp [splitChars]
  | cons c cs =>
    unfold splitChars
    split
    · simp
    · split <;> simp

/-- The index `[0]` on the result of `strings.Split` never panics. -/
theorem idSegment_ne_none (requestURI : String) : idSegment requestURI ≠ none := by
  unfold idSegment Split
  cases h : splitChars '/' (TrimLeft requestURI "users://").data with
  | nil => exact absurd h (splitChars_ne_nil _ _)
  | cons a l => simp

/-- C5 at its failing input: after one successful `create_user` call the new
record has ID 4 and reading `users://4/profile` panics on the index 4 of a
slice of length 4; after a second call the same identifier returns the record
with ID 5. -/
theorem profileHandler_created_user_not_served (IsPrint : Char → Bool) :
    Reachable usersAfterAnn ∧ Reachable usersAfterBen ∧
    usersAfterAnn.map User.ID = [0, 1, 2, 4] ∧
    profileHandler IsPrint usersAfterAnn ("users://" ++ Itoa 4 ++ "/profile") =
      .panic (.indexOutOfRange 4 4) ∧
    profileHandler IsPrint usersAfterBen ("users://" ++ Itoa 4 ++ "/profile") =
      .contents [{ URI := "users://4/profile", MIMEType := "application/json",
                   Text := userToJson ⟨5, "Ben", "ben@x.com", "user", "2024-01-16"⟩ }] :=
  ⟨Reachable.call _ _ _ Reachable.init,
   Reachable.call _ _ _ (Reachable.call _ _ _ Reachable.init), by decide, rfl, rfl⟩

/-- C6 at its failing input: on the initial slice the identifiers with ID
segment 999 and -1 make the handler panic on the slice index; after one
`create_user` call (IDs 0, 1, 2, 4) the ID segment 3, which no record has,
returns the record with ID 4. -/
theorem profileHandler_unknown_id_panics (IsPrint : Char → Bool) :
    profileHandler IsPrint users "users://999/profile" = .panic (.indexOutOfRange 999 3) ∧
    profileHandler IsPrint users "users://-1/profile" = .panic (.indexOutOfRange (-1) 3) ∧
    profileHandler IsPrint usersAfterAnn "users://3/profile" =
      .contents [{ URI := "users://3/profile", MIMEType := "application/json",
                   Text := userToJson ⟨4, "Ann", "ann@x.com", "admin", "2024-01-15"⟩ }] :=
  ⟨rfl, rfl, rfl⟩

/-- C7 at its failing input: for the literal value "s1" the handler extracts
"1", because `strings.TrimLeft` removes every leading character that occurs in
"users://", and it then serves the record at index 1; the value "7" is
extracted as it is. -/
theorem idSegment_trims_cutset (IsPrint : Char → Bool) :
    idSegment ("users://" ++ "s1" ++ "/profile") = some "1" ∧
    idSegment ("users://" ++ "user" ++ "/profile") = some "profile" ∧
    idSegment ("users://" ++ "7" ++ "/profile") = some "7" ∧
    profileHandler IsPrint users "users://s1/profile" =
      .contents [{ URI := "users://s1/profile", MIMEType := "application/json",
                   Text := userToJson ⟨1, "Bob Smith", "bob@example.com", "user",
                     "2024-02-20"⟩ }] :=
  ⟨by decide, by decide, by decide, rfl⟩

/-- C8: when `strconv.Atoi` fails on the extracted ID segment, the handler
returns no contents and an error whose message starts with the request
identifier in Go-quoted form and ends with the text of the parse error; the
outcome is the same for every `users` slice. -/
theorem profileHandler_parse_error (IsPrint : Char → Bool) (us : List User)
    (requestURI seg : String) (hseg : idSegment requestURI = some seg)
    (hA : (Atoi seg).2 ≠ none) :
    ∃ (msg : String) (e : NumErr),
      profileHandler IsPrint us requestURI = .error msg ∧
      (Atoi seg).2 = some e ∧
      (Quote IsPrint requestURI).data <+: msg.data ∧
      (numErrorText IsPrint seg e).data <:+ msg.data ∧
      ∀ us' : List User, profileHandler IsPrint us' requestURI = .error msg := by
  cases h : Atoi seg with
  | mk v o =>
    cases o with
    | none => simp [h] at hA
    | some e =>
      refine ⟨Quote IsPrint requestURI ++ " : " ++ fmtQInt IsPrint v ++ ": " ++
        numErrorText IsPrint seg e, e, ?_, rfl, ?_, ?_, ?_⟩
      · simp [profileHandler, hseg, h]
      · simp only [String.data_append, List.append_assoc]
        exact List.prefix_append _ _
      · simp only [String.data_append]
        exact List.suffix_append _ _
      · intro us'
        simp [profileHandler, hseg, h]

/-- C8 on the identifier `users://abc/profile` with the printable ASCII
characters as the `IsPrint` table. -/
theorem profileHandler_parse_error_witness :
    ∃ (msg : String) (e : NumErr),
      profileHandler (fun c => decide (0x20 ≤ c.toNat ∧ c.toNat < 0x7f)) users
        "users://abc/profile" = .error msg ∧
      (Atoi "abc").2 = some e ∧
      (Quote (fun c => decide (0x20 ≤ c.toNat ∧ c.toNat < 0x7f)) "users://abc/profile").data
        <+: msg.data ∧
      (numErrorText (fun c => decide (0x20 ≤ c.toNat ∧ c.toNat < 0x7f)) "abc" e).data
        <:+ msg.data ∧
      ∀ us' : List User,
        profileHandler (fun c => decide (0x20 ≤ c.toNat ∧ c.toNat < 0x7f)) us'
          "users://abc/profile" = .error msg :=
  profileHandler_parse_error _ users "users://abc/profile" "abc" (by decide) (by decide)

/-! ## Properties of the static resources -/

/-- C9: for every `i` below 50 the handler that `setupResources` registers
under `docs://readme` followed by the decimal form of `i` returns, when the
README file is read, one content item with that same URI, the media type
`text/markdown` and the file's content as text, and returns the read error and
no content when the read fails. -/
theorem setupResources_handler_own_uri (i : Nat) (hi : i < 50) :
    ∃ e : ResourceEntry,
      (setupResources NewMCPServer).find ("docs://readme" ++ Itoa i) = some e ∧
      e.resource.URI = "docs://readme" ++ Itoa i ∧
      e.resource.MIMEType = "text/markdown" ∧
      ∀ (readFile : String → Except String String) (request : String),
        (∀ content, readFile "README.md" = .ok content →
          e.handler readFile request =
            .contents [{ URI := "docs://readme" ++ Itoa i, MIMEType := "text/markdown",
                         Text := content }]) ∧
        (∀ err, readFile "README.md" = .error err →
          e.handler readFile request = .error err) := by
  interval_cases i <;>
    exact ⟨_, rfl, rfl, rfl, fun readFile request =>
      ⟨fun content h => by simp only [h], fun err h => by simp only [h]⟩⟩

/-- C9 on the registration of iteration 7. -/
theorem setupResources_handler_own_uri_witness :
    ∃ e : ResourceEntry,
      (setupResources NewMCPServer).find ("docs://readme" ++ Itoa (7 : Nat)) = some e ∧
      e.resource.URI = "docs://readme" ++ Itoa (7 : Nat) ∧
      e.resource.MIMEType = "text/markdown" ∧
      ∀ (readFile : String → Except String String) (request : String),
        (∀ content, readFile "README.md" = .ok content →
          e.handler readFile request =
            .contents [{ URI := "docs://readme" ++ Itoa (7 : Nat), MIMEType := "text/markdown",
                         Text := content }]) ∧
        (∀ err, readFile "README.md" = .error err →
          e.handler readFile request = .error err) :=
  setupResources_handler_own_uri 7 (by decide)

theorem splitChars_head_append (sep : Char) (l rest : List Char) (h : sep ∉ l) :
    (splitChars sep (l ++ sep :: rest)).head? = some l := by
  induction l with
  | nil => simp [splitChars]
  | cons c cs ih =>
    have hc : c ≠ sep := fun e => h (by simp [e])
    have hcs : sep ∉ cs := fun e => h (by simp [e])
    have ih' := ih hcs
    simp only [List.cons_append, splitChars, if_neg hc]
    cases hsp : splitChars sep (cs ++ sep :: rest) with
    | nil => exact absurd hsp (splitChars_ne_nil _ _)
    | cons a t =>
      rw [hsp] at ih'
      simp only [List.head?_cons, Option.some.injEq] at ih'
      simp [ih']

/-- The extraction is right on every literal value that contains no slash and
whose first character is none of the characters of "users://": on the
identifier built from such a value the handler parses the value itself. -/
theorem idSegment_literal (v : String) (c : Char) (cs : List Char) (hv : v.data = c :: cs)
    (hc : c ∉ "users://".data) (hs : '/' ∉ v.data) :
    idSegment ("users://" ++ v ++ "/profile") = some v := by
  have hc' : ¬ (c = 'u' ∨ c = 's' ∨ c = 'e' ∨ c = 'r' ∨ c = ':' ∨ c = '/') := by
    intro h
    apply hc
    rcases h with h | h | h | h | h | h <;> rw [h] <;> decide
  simp only [not_or] at hc'
  have hd : (TrimLeft ("users://" ++ v ++ "/profile") "users://").data =
      v.data ++ '/' :: "profile".data := by
    simp only [TrimLeft, String.data_append, List.append_assoc, hv]
    simp [List.dropWhile, hc'.1, hc'.2.1, hc'.2.2.1, hc'.2.2.2.1, hc'.2.2.2.2.1, hc'.2.2.2.2.2]
  unfold idSegment Split
  rw [hd, List.head?_map, splitChars_head_append _ _ _ hs]
  rfl

end McpServer
